import Mathlib

/-!
Verification of the node registry and polling core of helios-network-stats.

Shallow embedding conventions:
* JavaScript numbers are modelled as `ℤ`/`Nat` where the program only ever
  produces integers (millisecond timestamps, latencies, block numbers,
  counters, ports) and as `ℚ` where the source divides (gas price in Gwei,
  the block-time mean) or multiplies by `Math.random()` (reconnect jitter).
  `NaN` never appears as a value: a parse that would produce `NaN` is
  modelled as `Option.none`.
* Optional (possibly `undefined`) fields are `Option` types.
* The pending-request table of `RpcWsClient` (a JS `Map` iterated in insertion
  order) is a `List` of records; `Map.set` with a fresh key appends.
* Timer handles are modelled by presence: a pending request that is removed
  from the table has had `clearTimeout` called on its timer (every deletion
  site in the source clears the timer first), and `reconnectTimer`/`pollTimer`
  are `Option`/`Bool` flags.
* Asynchronous callbacks (`open`, `close`, `message`) are modelled as explicit
  state-transition functions; emission of rejections is returned as a list of
  `(request id, failure)` pairs.
-/

/-- Externally visible state of one monitored endpoint, from
`src/types/node.ts` (interface `NodeSnapshot`).  The interface in
`src/types/node.ts` does NOT declare `lastDisconnected`; at runtime the
property is simply absent (`undefined`) on every snapshot object, which we
model as a field that is `none` initially and is never assigned by any
operation of `NodeEntry`.  `server.ts` and the front end nevertheless read
`snapshot.lastDisconnected`. -/
structure NodeSnapshot where
  name : String
  host : String
  rpcPort : Nat
  wsRpcPort : Nat
  connected : Bool
  lastError : Option String
  latestBlock : Option Int
  peerCount : Option Int
  clientVersion : Option String
  syncing : Option Bool
  mining : Option Bool
  latencyMs : Option ℤ
  gasPriceGwei : Option ℚ
  gasLimit : Option Int
  gasUsed : Option Int
  blockTimeMs : Option ℤ
  blockTimeAvgMs : Option ℚ
  blockPropagationMs : Option ℤ
  blockTxs : Option Nat
  lastUpdated : Option ℤ
  lastDisconnected : Option ℤ
  uptimeMs : Option ℤ
  deriving Repr, DecidableEq

/-- Private state of one `NodeEntry` (`src/services/NodeEntry.ts`):
its snapshot plus the poll timer flag, the polling-in-progress flag,
`connectedSince`, `lastBlockTimestampSec` and the rolling window
`timesWindow`. -/
structure EntryState where
  snapshot : NodeSnapshot
  pollTimer : Bool
  polling : Bool
  connectedSince : Option ℤ
  lastBlockTimestampSec : Option Int
  timesWindow : List ℤ
  deriving Repr, DecidableEq

/-- Snapshot built by the `NodeEntry` constructor: only identity fields and
`connected := false` are set; every other property is absent. -/
def initSnapshot (name host : String) (rpcPort wsRpcPort : Nat) : NodeSnapshot :=
  { name := name
    host := host
    rpcPort := rpcPort
    wsRpcPort := wsRpcPort
    connected := false
    lastError := none
    latestBlock := none
    peerCount := none
    clientVersion := none
    syncing := none
    mining := none
    latencyMs := none
    gasPriceGwei := none
    gasLimit := none
    gasUsed := none
    blockTimeMs := none
    blockTimeAvgMs := none
    blockPropagationMs := none
    blockTxs := none
    lastUpdated := none
    lastDisconnected := none
    uptimeMs := none }

/-- State built by the `NodeEntry` constructor. -/
def NodeEntry.init (name host : String) (rpcPort wsRpcPort : Nat) : EntryState :=
  { snapshot := initSnapshot name host rpcPort wsRpcPort
    pollTimer := false
    polling := false
    connectedSince := none
    lastBlockTimestampSec := none
    timesWindow := [] }

/-- Value of one hexadecimal digit, if the character is one. -/
def hexDigit? (c : Char) : Option Nat :=
  if decide (Char.ofNat 48 ≤ c) && decide (c ≤ Char.ofNat 57) then
    some (c.toNat - 48)
  else if decide (Char.ofNat 97 ≤ c) && decide (c ≤ Char.ofNat 102) then
    some (c.toNat - 97 + 10)
  else if decide (Char.ofNat 65 ≤ c) && decide (c ≤ Char.ofNat 70) then
    some (c.toNat - 65 + 10)
  else none

/-- Accumulate the value of the longest leading run of hex digits. -/
def hexDigitsVal : List Char → Nat → Nat
  | [], acc => acc
  | c :: cs, acc =>
    match hexDigit? c with
    | some d => hexDigitsVal cs (acc * 16 + d)
    | none => acc

/-- Drop an optional 0x / 0X prefix. -/
def stripHexPrefix : List Char → List Char
  | '0' :: 'x' :: cs => cs
  | '0' :: 'X' :: cs => cs
  | cs => cs

/-- Parse the longest hex-digit prefix; `none` when there is no leading
digit (the JS result would be `NaN`). -/
def parseHexCore (cs : List Char) : Option Nat :=
  match cs with
  | [] => none
  | c :: _ => if (hexDigit? c).isSome then some (hexDigitsVal cs 0) else none

/-- Whitespace test used when trimming the parseInt argument. -/
def isSpaceChar (c : Char) : Bool :=
  decide (c = ' ') || decide (c = Char.ofNat 9) || decide (c = Char.ofNat 10) ||
    decide (c = Char.ofNat 13) || decide (c = Char.ofNat 12) || decide (c = Char.ofNat 11)

/-- Trim leading and trailing whitespace from a character list. -/
def trimChars (cs : List Char) : List Char :=
  ((cs.dropWhile isSpaceChar).reverse.dropWhile isSpaceChar).reverse

/-- Model of the JS call `parseInt(s, 16)`: trim whitespace, optional sign,
optional 0x prefix, then the longest run of hex digits; `none` models `NaN`. -/
def parseHexInt (s : String) : Option Int :=
  match trimChars s.toList with
  | '-' :: cs => (parseHexCore (stripHexPrefix cs)).map (fun n => -(n : Int))
  | '+' :: cs => (parseHexCore (stripHexPrefix cs)).map (fun n => (n : Int))
  | cs => (parseHexCore (stripHexPrefix cs)).map (fun n => (n : Int))

/-- The `lastError` value written by the close handler: the close reason
when non-empty, otherwise the previous error when truthy, otherwise the
fixed WS-closed message.  An empty previous error string is falsy in JS and
is replaced. -/
def closeErrorMsg (code : Nat) (reason : String) (prev : Option String) : Option String :=
  if reason.length > 0 then
    some ("WS close " ++ toString code ++ ": " ++ reason)
  else
    match prev with
    | some e => if e.length > 0 then some e else some "WS closed"
    | none => some "WS closed"

/-- The `handleClose` callback of `NodeEntry.start`
(`src/services/NodeEntry.ts`, lines 55-61): sets `connected := false`,
rewrites `lastError`, stamps `lastUpdated`, emits the snapshot, and clears
the poll timer.  It does not touch any other snapshot field. -/
def handleClose (code : Nat) (reason : String) (now : ℤ) (st : EntryState) : EntryState :=
  { st with
    snapshot := { st.snapshot with
      connected := false
      lastError := closeErrorMsg code reason st.snapshot.lastError
      lastUpdated := some now }
    pollTimer := false }

/-- The `handleOpen` callback of `NodeEntry.start`. -/
def handleOpen (now : ℤ) (st : EntryState) : EntryState :=
  { st with
    snapshot := { st.snapshot with
      connected := true
      lastError := none
      lastUpdated := some now
      uptimeMs := some 0 }
    connectedSince := some now
    pollTimer := true }

/-- Removal test of the offline staleness sweep
(`src/server.ts`, `setupPeriodicTasks`, lines 90-109): a node is removed
when it is not connected, `lastDisconnected` is a finite number, and the
age `now - lastDisconnected` strictly exceeds the threshold. -/
def sweepShouldRemove (thresholdMs now : ℤ) (n : NodeSnapshot) : Bool :=
  !n.connected &&
    (match n.lastDisconnected with
     | some ld => decide (now - ld > thresholdMs)
     | none => false)

/-- One tick of the offline staleness sweep over the registry contents. -/
def sweepOnce (thresholdMs now : ℤ) (nodes : List NodeSnapshot) : List NodeSnapshot :=
  nodes.filter (fun n => !sweepShouldRemove thresholdMs now n)

/-! ### RpcWsClient (`src/services/RpcWsClient.ts`) -/

/-- Reasons a pending request can be rejected (or a direct call failure). -/
inductive RpcFailure
  | connectionClosed
  | cleanupTooOld
  | sendError
  | notConnected
  deriving Repr, DecidableEq

/-- One entry of the pending-request table: correlation id, creation time,
and whether its timeout timer is live.  Every code path of the source that
deletes an entry calls `clearTimeout` on its timer first, so removal from
the table models releasing the timer. -/
structure PendingReq where
  id : Nat
  createdAt : ℤ
  timerActive : Bool
  deriving Repr, DecidableEq

/-- Mutable state of one `RpcWsClient`. -/
structure RpcState where
  idCounter : Nat
  pending : List PendingReq
  connected : Bool
  connecting : Bool
  wsOpen : Bool
  reconnectTimer : Option ℚ
  currentReconnectDelay : ℚ
  shouldReconnect : Bool
  deriving Repr, DecidableEq

/-- Base reconnect delay (field `reconnectDelay = 2000`). -/
def reconnectDelayBase : ℚ := 2000

/-- Reconnect delay cap (field `maxReconnectDelay = 30000`). -/
def maxReconnectDelayQ : ℚ := 30000

/-- Age ceiling of `cleanupOldRequests` (`maxAge = 60000`). -/
def cleanupMaxAgeMs : ℤ := 60000

/-- Fresh client state built by the constructor. -/
def RpcWsClient.init : RpcState :=
  { idCounter := 1
    pending := []
    connected := false
    connecting := false
    wsOpen := false
    reconnectTimer := none
    currentReconnectDelay := reconnectDelayBase
    shouldReconnect := true }

/-- Model of `cleanupOldRequests()`: reject (with the cleanup error) and drop every
pending request older than 60 s, clearing its timer; keep the rest. -/
def cleanupOldRequests (now : ℤ) (st : RpcState) : RpcState × List (Nat × RpcFailure) :=
  ({ st with pending := st.pending.filter (fun p => !decide (now - p.createdAt > cleanupMaxAgeMs)) },
   (st.pending.filter (fun p => decide (now - p.createdAt > cleanupMaxAgeMs))).map
     (fun p => (p.id, RpcFailure.cleanupTooOld)))

/-- Model of `disconnect()` (lines 81-92): clear `shouldReconnect` and `connecting`,
cancel the reconnect timer, terminate the socket, clear `connected`, and run
`cleanupOldRequests` (which only touches requests older than 60 s).  The
second component lists the requests rejected synchronously. -/
def RpcWsClient.disconnect (now : ℤ) (st : RpcState) : RpcState × List (Nat × RpcFailure) :=
  cleanupOldRequests now
    { st with
      shouldReconnect := false
      connecting := false
      reconnectTimer := none
      wsOpen := false
      connected := false }

/-- Model of `scheduleReconnect` (lines 108-121): no-op when `shouldReconnect` is
false; otherwise arm the reconnect timer with the current delay and advance
the delay to `min(current * 2 + jitter, 30000)`. -/
def scheduleReconnect (jitter : ℚ) (st : RpcState) : RpcState :=
  if !st.shouldReconnect then st
  else
    { st with
      reconnectTimer := some st.currentReconnectDelay
      currentReconnectDelay := min (st.currentReconnectDelay * 2 + jitter) maxReconnectDelayQ }

/-- The socket `close` event handler (lines 62-73): clear the connection
flags, reject every pending request with `Connection closed` (clearing each
timer), empty the table, invoke the owner callback (modelled separately by
`handleClose`), and call `scheduleReconnect`. -/
def closeHandlerRpc (jitter : ℚ) (st : RpcState) : RpcState × List (Nat × RpcFailure) :=
  (scheduleReconnect jitter
     { st with connected := false, connecting := false, wsOpen := false, pending := [] },
   st.pending.map (fun p => (p.id, RpcFailure.connectionClosed)))

/-- The socket `open` event handler (lines 37-42): set the connection flags
and reset the backoff delay to the base value. -/
def openHandlerRpc (st : RpcState) : RpcState :=
  { st with
    connected := true
    connecting := false
    wsOpen := true
    currentReconnectDelay := reconnectDelayBase }

/-- Composition of `disconnect()` and the `close` event that `terminate()` makes the
socket emit.  Rejections of both phases are concatenated in order. -/
def disconnectThenClose (now : ℤ) (jitter : ℚ) (st : RpcState) : RpcState × List (Nat × RpcFailure) :=
  let r1 := RpcWsClient.disconnect now st
  let r2 := closeHandlerRpc jitter r1.1
  (r2.1, r1.2 ++ r2.2)

/-- Immediate outcome of `call` as seen by the caller. -/
inductive CallResult
  | notConnected
  | pendingReq (id : Nat)
  | sendFailed
  deriving Repr, DecidableEq

/-- Model of `call(method, params, timeoutMs)` (lines 128-162), with the result of
the underlying `ws.send` supplied as the oracle `sendOk`.  On an open socket
the request gets the next correlation id, a timeout timer, and a table
entry; if `send` throws synchronously the timer is cleared, the entry is
deleted again, and the promise rejects with the thrown error. -/
def RpcWsClient.call (now : ℤ) (sendOk : Bool) (st : RpcState) : RpcState × CallResult :=
  if !st.wsOpen then (st, CallResult.notConnected)
  else
    let id := st.idCounter
    let withReq : RpcState :=
      { st with
        idCounter := id + 1
        pending := st.pending ++ [{ id := id, createdAt := now, timerActive := true }] }
    if sendOk then (withReq, CallResult.pendingReq id)
    else
      ({ withReq with pending := withReq.pending.filter (fun p => !decide (p.id = id)) },
       CallResult.sendFailed)

/-! ### NodeEntry poll cycle (`src/services/NodeEntry.ts`, lines 102-160) -/

/-- Raw block object returned by `eth_getBlockByNumber`; `transactions` is
`some n` when the field is an array (of length `n`), `none` otherwise. -/
structure BlockObj where
  timestamp : String
  transactions : Option Nat
  gasUsed : String
  gasLimit : String
  deriving Repr, DecidableEq

/-- Raw results of the probe calls of one successful poll cycle.
`blockObj = none` models a failed (caught) block fetch. -/
structure PollData where
  blockHex : String
  peerHex : String
  clientVer : String
  syncing : Bool
  mining : Bool
  gasPriceHex : String
  blockObj : Option BlockObj
  deriving Repr, DecidableEq

/-- Rolling-window push (lines 146-147): append the sample, then drop the
oldest one when the length exceeds 10. -/
def pushWindow (w : List ℤ) (dt : ℤ) : List ℤ :=
  let w2 := w ++ [dt]
  if w2.length > 10 then w2.drop 1 else w2

/-- Arithmetic mean of the window (lines 150-153). -/
def windowMean (w : List ℤ) : ℚ :=
  ((w.foldl (· + ·) 0 : ℤ) : ℚ) / (w.length : ℚ)

/-- Model of the timestamp read, which in the source is a base-16 parseInt
with falsy results collapsed to undefined: the value 0 (and
`NaN`) collapse to `undefined` by JS falsiness. -/
def blockTsSec (b : BlockObj) : Option Int :=
  match parseHexInt b.timestamp with
  | some t => if t = 0 then none else some t
  | none => none

/-- Timestamp-dependent part of the block section (lines 140-154): block
propagation, the rolling-window push guarded by a strictly newer timestamp,
the new `lastBlockTimestampSec`, and the window mean. -/
def pollTsSection (now : ℤ) (ts : Int) (lastTs : Option Int) (win : List ℤ)
    (s : NodeSnapshot) : NodeSnapshot × Option Int × List ℤ :=
  let s3 : NodeSnapshot := { s with blockPropagationMs := some (now - ts * 1000) }
  let pushed : Bool :=
    match lastTs with
    | some prev => !decide (prev = 0) && decide (prev < ts)
    | none => false
  let dt : ℤ :=
    match lastTs with
    | some prev => (ts - prev) * 1000
    | none => 0
  let w2 := if pushed then pushWindow win dt else win
  let s4 : NodeSnapshot := if pushed then { s3 with blockTimeMs := some dt } else s3
  let s5 : NodeSnapshot :=
    if w2.length > 0 then { s4 with blockTimeAvgMs := some (windowMean w2) } else s4
  (s5, some ts, w2)

/-- Block section of the poll cycle (the `if (latestBlockObj)` body, lines
132-155): transaction count, gas used/limit with fail-soft parsing, then the
timestamp-dependent part when the timestamp is truthy. -/
def pollBlockSection (now : ℤ) (b : BlockObj) (lastTs : Option Int) (win : List ℤ)
    (s : NodeSnapshot) : NodeSnapshot × Option Int × List ℤ :=
  let s2 : NodeSnapshot :=
    { s with
      blockTxs := b.transactions
      gasUsed := match parseHexInt b.gasUsed with | some g => some g | none => s.gasUsed
      gasLimit := match parseHexInt b.gasLimit with | some g => some g | none => s.gasLimit }
  match blockTsSec b with
  | some ts => pollTsSection now ts lastTs win s2
  | none => (s2, lastTs, win)

/-- Probe-field assignments of the poll cycle (lines 115-126): fail-soft
block and peer counts, truthiness-guarded client version and sync flag,
unconditional mining, latency and gas price writes. -/
def pollProbes (latency : ℤ) (d : PollData) (s0 : NodeSnapshot) : NodeSnapshot :=
  { s0 with
    latestBlock := match parseHexInt d.blockHex with | some b => some b | none => s0.latestBlock
    peerCount := match parseHexInt d.peerHex with | some p => some p | none => s0.peerCount
    clientVersion := if d.clientVer.length > 0 then some d.clientVer else s0.clientVersion
    syncing := if d.syncing then some true else s0.syncing
    mining := some d.mining
    latencyMs := some latency
    gasPriceGwei := (parseHexInt d.gasPriceHex).map (fun g => (g : ℚ) / 1000000000) }

/-- Snapshot and private-state update of one successful poll cycle (the
`try` body, lines 103-160, followed by the `finally` block).  `latency` is
the measured round trip of the liveness probe. -/
def pollUpdate (now latency : ℤ) (d : PollData) (st : EntryState) : EntryState :=
  let s1 : NodeSnapshot := pollProbes latency d st.snapshot
  let step2 : NodeSnapshot × Option Int × List ℤ :=
    match parseHexInt d.blockHex, d.blockObj with
    | some _, some b => pollBlockSection now b st.lastBlockTimestampSec st.timesWindow s1
    | _, _ => (s1, st.lastBlockTimestampSec, st.timesWindow)
  { st with
    snapshot :=
      { step2.1 with connected := true, lastError := none, lastUpdated := some now }
    lastBlockTimestampSec := step2.2.1
    timesWindow := step2.2.2
    polling := false
    pollTimer := true }

/-! ### Registry (`src/services/Registry.ts`) -/

/-- Connectedness rank of the `list()` comparator: `a.connected ? 0 : 1`. -/
def connRank (s : NodeSnapshot) : Nat :=
  if s.connected then 0 else 1

/-- Latency key of the `list()` comparator:
`Number.isFinite(latencyMs) && latencyMs >= 0 ? latencyMs : Infinity`,
with `⊤` standing for `Infinity` (an absent value is non-finite). -/
def latExt (s : NodeSnapshot) : WithTop ℤ :=
  match s.latencyMs with
  | some l => if 0 ≤ l then (l : WithTop ℤ) else ⊤
  | none => ⊤

/-- Last-update key of the `list()` comparator, negated so that the
descending comparison `bu - au` becomes an ascending one; the source maps a
non-finite `lastUpdated` to `-Infinity`, which negates to `⊤`. -/
def luExtd (s : NodeSnapshot) : WithTop ℤ :=
  match s.lastUpdated with
  | some u => ((-u : ℤ) : WithTop ℤ)
  | none => ⊤

/-- Three-way comparison of a linear order, as the sign of the comparator
value returned by the source. -/
def ordc {α : Type} [LinearOrder α] (x y : α) : Ordering :=
  if x < y then Ordering.lt else if x = y then Ordering.eq else Ordering.gt

/-- The `list()` comparator (lines 42-55): connected first, then ascending
latency (non-finite or negative treated as `Infinity`), then descending
`lastUpdated` (non-finite treated as `-Infinity`), then `localeCompare` on
names, modelled as lexicographic string order. -/
def cmpSnap (a b : NodeSnapshot) : Ordering :=
  (ordc (connRank a) (connRank b)).then
    ((ordc (latExt a) (latExt b)).then
      ((ordc (luExtd a) (luExtd b)).then (ordc a.name b.name)))

/-- Weak order induced by the comparator (comparator value ≤ 0). -/
def nodeLe (a b : NodeSnapshot) : Prop :=
  cmpSnap a b ≠ Ordering.gt

instance : DecidableRel nodeLe := fun a b => by
  unfold nodeLe; infer_instance

/-- Model of `list()`: the snapshots sorted by the comparator (a sort call
with a consistent comparator, modelled as a stable insertion sort). -/
def registryList (l : List NodeSnapshot) : List NodeSnapshot :=
  List.insertionSort nodeLe l

/-- Combined sort key of one snapshot; the comparator is shown to order
snapshots exactly by this lexicographic key. -/
def snapKey (s : NodeSnapshot) : ℕ ×ₗ ((WithTop ℤ) ×ₗ ((WithTop ℤ) ×ₗ String)) :=
  toLex (connRank s, toLex (latExt s, toLex (luExtd s, s.name)))

/-- Ranking described by the claim, literally: connected before
disconnected; within equal connectedness ascending latency with unmeasured
or non-finite latency worst; ties most-recently-updated first; final ties
by name ascending.  A present (finite) negative latency is its own value
here. -/
def latExtOrig (s : NodeSnapshot) : WithTop ℤ :=
  match s.latencyMs with
  | some l => (l : WithTop ℤ)
  | none => ⊤

/-- Last-update value with `⊥` for an absent timestamp (oldest). -/
def luExtB (s : NodeSnapshot) : WithBot ℤ :=
  match s.lastUpdated with
  | some u => (u : WithBot ℤ)
  | none => ⊥

/-- The ordering stated by the claim, as written (negative latencies are
ordinary measured values). -/
def specLeOrig (a b : NodeSnapshot) : Prop :=
  connRank a < connRank b ∨
    (connRank a = connRank b ∧
      (latExtOrig a < latExtOrig b ∨
        (latExtOrig a = latExtOrig b ∧
          (luExtB b < luExtB a ∨
            (luExtB a = luExtB b ∧ a.name ≤ b.name)))))

instance : DecidableRel specLeOrig := fun a b => by
  unfold specLeOrig; infer_instance

/-- The ordering of the amended claim: as above, but a negative measured
latency is also treated as worst, exactly like an unmeasured one. -/
def specLe (a b : NodeSnapshot) : Prop :=
  connRank a < connRank b ∨
    (connRank a = connRank b ∧
      (latExt a < latExt b ∨
        (latExt a = latExt b ∧
          (luExtB b < luExtB a ∨
            (luExtB a = luExtB b ∧ a.name ≤ b.name)))))

instance : DecidableRel specLe := fun a b => by
  unfold specLe; infer_instance

/-- Extended block height used by `getMostAdvancedConnected`: the block
number when present, otherwise negative infinity. -/
def lbExt (s : NodeSnapshot) : WithBot ℤ :=
  match s.latestBlock with
  | some b => (b : WithBot ℤ)
  | none => ⊥

/-- Extended last-update time used by `getMostAdvancedConnected`. -/
def luExt (s : NodeSnapshot) : WithBot ℤ :=
  match s.lastUpdated with
  | some u => (u : WithBot ℤ)
  | none => ⊥

/-- One step of the `getMostAdvancedConnected` loop (lines 66-78): skip
disconnected entries; replace the best entry when the block is strictly
higher, or equal with a strictly more recent `lastUpdated`. -/
def mostAdvStep (acc : Option NodeSnapshot × WithBot ℤ × WithBot ℤ) (n : NodeSnapshot) :
    Option NodeSnapshot × WithBot ℤ × WithBot ℤ :=
  if n.connected then
    if acc.2.1 < lbExt n ∨ (lbExt n = acc.2.1 ∧ acc.2.2 < luExt n) then
      (some n, lbExt n, luExt n)
    else acc
  else acc

/-- Model of `getFirstConnected()` (lines 59-64). -/
def getFirstConnected (l : List NodeSnapshot) : Option NodeSnapshot :=
  l.find? (fun s => s.connected)

/-- Model of `getMostAdvancedConnected()` (lines 66-80): the loop above, falling back
to the first connected entry when the loop selected nothing. -/
def getMostAdvancedConnected (l : List NodeSnapshot) : Option NodeSnapshot :=
  match (l.foldl mostAdvStep (none, ⊥, ⊥)).1 with
  | some n => some n
  | none => getFirstConnected l

/-- Proof-side invariant of the `getMostAdvancedConnected` loop after the
processed prefix `seen`: either no best entry has been selected and every
connected snapshot seen so far has neither a block height nor an update
time, or the best entry is a connected seen snapshot whose accumulator
fields match and which lexicographically dominates (by block height, then
update time) every connected snapshot seen so far. -/
def AdvInv (seen : List NodeSnapshot)
    (acc : Option NodeSnapshot × WithBot ℤ × WithBot ℤ) : Prop :=
  match acc with
  | (none, bb, bu) => bb = ⊥ ∧ bu = ⊥ ∧
      ∀ s ∈ seen, s.connected = true → lbExt s = ⊥ ∧ luExt s = ⊥
  | (some e, bb, bu) => e ∈ seen ∧ e.connected = true ∧ bb = lbExt e ∧ bu = luExt e ∧
      ¬(lbExt e = ⊥ ∧ luExt e = ⊥) ∧
      ∀ s ∈ seen, s.connected = true →
        (lbExt s < lbExt e ∨ (lbExt s = lbExt e ∧ luExt s ≤ luExt e))

/-! ### Persistence (`Registry.getPersistedList` / `persist` /
`loadPersistedNodes`) -/

/-- Persisted form of one node (`PersistedNode` in `src/types/node.ts`). -/
structure PersistedNode where
  name : String
  host : String
  rpcPort : Nat
  wsRpcPort : Nat
  deriving Repr, DecidableEq

/-- Model of `getPersistedList()` (lines 11-18): project every active entry to its
reconnection parameters, in registry order. -/
def getPersistedList (entries : List EntryState) : List PersistedNode :=
  entries.map fun e =>
    { name := e.snapshot.name
      host := e.snapshot.host
      rpcPort := e.snapshot.rpcPort
      wsRpcPort := e.snapshot.wsRpcPort }

/-- The per-record coercions of `loadPersistedNodes` (lines 136-141): the
String coercion of a name that is already a string is the identity (an
empty name stays empty), and the Number coercion of a falsy port (0)
replaces it by the default. -/
def sanitizePersisted (x : PersistedNode) : PersistedNode :=
  { name := x.name
    host := x.host
    rpcPort := if x.rpcPort = 0 then 8545 else x.rpcPort
    wsRpcPort := if x.wsRpcPort = 0 then 8546 else x.wsRpcPort }

/-- Contents of the persistence file as seen by `loadPersistedNodes`:
absent, unparsable JSON, or a well-formed `{ nodes: [...] }` document (the
shape `persist` writes). -/
inductive PersistFile
  | missing
  | corrupt
  | valid (nodes : List PersistedNode)
  deriving DecidableEq

/-- Model of `loadPersistedNodes()` (lines 129-148): empty list on a missing file or
on any read/parse error; otherwise coerce each record and keep those with a
truthy name and host. -/
def loadPersistedNodes : PersistFile → List PersistedNode
  | PersistFile.missing => []
  | PersistFile.corrupt => []
  | PersistFile.valid ns =>
    (ns.map sanitizePersisted).filter fun n =>
      !decide (n.name = "") && !decide (n.host = "")

/-! ### Reconnect delay sequences (for the backoff analysis) -/

/-- Scheduled reconnect delays produced by a run of consecutive close events
with the given jitters, starting from `st`. -/
def delaysFrom (st : RpcState) : List ℚ → List ℚ
  | [] => []
  | j :: js =>
    let st2 := (closeHandlerRpc j st).1
    (match st2.reconnectTimer with
     | some dl => [dl]
     | none => []) ++ delaysFrom st2 js

/-- The delay recurrence stated by the claim: the first delay is the current
one, and each subsequent delay is the previous one doubled plus the jitter,
capped at 30000. -/
def recSeq (d0 : ℚ) : List ℚ → List ℚ
  | [] => []
  | j :: js => d0 :: recSeq (min (d0 * 2 + j) 30000) js

/-! ### Concrete states used by counterexamples and witnesses -/

/-- A client state holding exactly one fresh pending request (1 s old). -/
def rpcOneFresh : RpcState :=
  { RpcWsClient.init with
    wsOpen := true
    connected := true
    pending := [{ id := 1, createdAt := 1000, timerActive := true }] }

/-- A client state holding one fresh and one over-aged pending request. -/
def rpcMixedAge : RpcState :=
  { RpcWsClient.init with
    idCounter := 3
    wsOpen := true
    connected := true
    pending := [{ id := 1, createdAt := 0, timerActive := true },
                { id := 2, createdAt := 100000, timerActive := true }] }

/-- An entry whose snapshot already has a gas price and a transaction count. -/
def pollPrevState : EntryState :=
  { NodeEntry.init "n" "h" 1 2 with
    snapshot :=
      { initSnapshot "n" "h" 1 2 with gasPriceGwei := some 5, blockTxs := some 7 } }

/-- Poll results whose gas price is unparseable and whose block object has
no transactions array. -/
def pollBadGasData : PollData :=
  { blockHex := "0x10"
    peerHex := "0x2"
    clientVer := "geth"
    syncing := false
    mining := false
    gasPriceHex := "zz"
    blockObj := some { timestamp := "0x64", transactions := none, gasUsed := "0x5", gasLimit := "0x6" } }

/-- Poll results in which every hexadecimal probe value is unparseable. -/
def pollAllBadData : PollData :=
  { blockHex := "zz"
    peerHex := "xx"
    clientVer := ""
    syncing := false
    mining := false
    gasPriceHex := "yy"
    blockObj := some { timestamp := "0x64", transactions := none, gasUsed := "qq", gasLimit := "pp" } }

/-- Two connected snapshots without block numbers, second more recently
updated. -/
def snapNoBlockOld : NodeSnapshot :=
  { initSnapshot "x" "h" 1 2 with connected := true, lastUpdated := some 3 }

/-- See `snapNoBlockOld`. -/
def snapNoBlockNew : NodeSnapshot :=
  { initSnapshot "y" "h" 1 2 with connected := true, lastUpdated := some 5 }

/-- A connected snapshot with a negative measured latency. -/
def snapNegLat : NodeSnapshot :=
  { initSnapshot "a" "h" 1 2 with connected := true, latencyMs := some (-5) }

/-- A connected snapshot with an ordinary small latency. -/
def snapPosLat : NodeSnapshot :=
  { initSnapshot "b" "h" 1 2 with connected := true, latencyMs := some 3 }

/-- A one-entry registry used to witness the persistence round trip. -/
def persistWitnessEntries : List EntryState := [NodeEntry.init "n1" "h1" 8545 8546]

/-! ## Theorems -/

/-- Helper: the timestamp section never writes `lastDisconnected`. -/
theorem pollTsSection_lastDisconnected (now : ℤ) (ts : Int) (lastTs : Option Int)
    (win : List ℤ) (s : NodeSnapshot) :
    (pollTsSection now ts lastTs win s).1.lastDisconnected = s.lastDisconnected := by
  unfold pollTsSection
  rcases lastTs with _ | prev <;> dsimp only <;> (repeat' split) <;> rfl

/-- Helper: the block section never writes `lastDisconnected`. -/
theorem pollBlockSection_lastDisconnected (now : ℤ) (b : BlockObj) (lastTs : Option Int)
    (win : List ℤ) (s : NodeSnapshot) :
    (pollBlockSection now b lastTs win s).1.lastDisconnected = s.lastDisconnected := by
  unfold pollBlockSection
  rcases blockTsSec b with _ | ts
  · rfl
  · exact pollTsSection_lastDisconnected now ts lastTs win _

/-- Helper: `pollUpdate` never writes `lastDisconnected`. -/
theorem pollUpdate_lastDisconnected (now lat : ℤ) (d : PollData) (st : EntryState) :
    (pollUpdate now lat d st).snapshot.lastDisconnected = st.snapshot.lastDisconnected := by
  unfold pollUpdate
  rcases parseHexInt d.blockHex with _ | lb <;> rcases d.blockObj with _ | bo <;>
    try rfl
  exact pollBlockSection_lastDisconnected now bo st.lastBlockTimestampSec st.timesWindow _

/-- C1: on `onClose` the snapshot is marked disconnected, the poll timer is
cleared and `lastError` is set from a non-empty close reason — but
`lastDisconnected` is NOT set to the current time: the close handler leaves
it exactly as it was (it is absent from the `NodeSnapshot` interface and no
code ever assigns it), contradicting the specified first-transition stamp. -/
theorem handleClose_no_lastDisconnected (code : Nat) (reason : String) (now : ℤ)
    (st : EntryState) :
    (handleClose code reason now st).snapshot.connected = false ∧
    (handleClose code reason now st).snapshot.lastDisconnected =
      st.snapshot.lastDisconnected ∧
    (handleClose code reason now st).pollTimer = false ∧
    (handleClose code reason now st).snapshot.lastUpdated = some now ∧
    (handleClose code reason now st).snapshot.lastError =
      (if reason.length > 0
       then some ("WS close " ++ toString code ++ ": " ++ reason)
       else closeErrorMsg code reason st.snapshot.lastError) := by
  refine ⟨rfl, rfl, rfl, rfl, ?_⟩
  by_cases h : reason.length > 0 <;> simp [handleClose, closeErrorMsg, h]

/-- C2: because no operation of `NodeEntry` ever sets `lastDisconnected`
(it stays `none` from construction through polls and the close event), the
staleness sweep test is false at every later time for a monitor whose
connection dropped at `T0`, whatever the threshold: the sweep never removes
such a monitor, instead of removing it at the first tick past
`T0 + offlineUnsubscribeMs`. -/
theorem sweep_never_fires (thr now T0 lat : ℤ) (code : Nat)
    (reason name host : String) (rp wp : Nat) (d : PollData) (st : EntryState) :
    sweepShouldRemove thr now
      ((handleClose code reason T0 (NodeEntry.init name host rp wp)).snapshot) = false ∧
    (handleClose code reason T0 st).snapshot.lastDisconnected =
      st.snapshot.lastDisconnected ∧
    (pollUpdate now lat d st).snapshot.lastDisconnected =
      st.snapshot.lastDisconnected ∧
    (handleOpen now st).snapshot.lastDisconnected = st.snapshot.lastDisconnected ∧
    sweepOnce thr now
        [(handleClose code reason T0 (NodeEntry.init name host rp wp)).snapshot] =
      [(handleClose code reason T0 (NodeEntry.init name host rp wp)).snapshot] := by
  refine ⟨rfl, rfl, pollUpdate_lastDisconnected now lat d st, rfl, rfl⟩

/-- C10: on an open socket, when the underlying `send` throws, `call`
rejects with the thrown error, the fresh timeout timer is cleared, and the
pending table is restored to exactly its previous contents — the only state
change is the consumed correlation id. -/
theorem call_send_throws (now : ℤ) (st : RpcState)
    (hw : st.wsOpen = true)
    (hfresh : ∀ p ∈ st.pending, p.id < st.idCounter) :
    RpcWsClient.call now false st =
      ({ st with idCounter := st.idCounter + 1 }, CallResult.sendFailed) := by
  have hone : List.filter (fun p => !decide (p.id = st.idCounter))
      [({ id := st.idCounter, createdAt := now, timerActive := true } : PendingReq)] = [] := by
    simp [List.filter]
  have hkeep : st.pending.filter (fun p => !decide (p.id = st.idCounter)) = st.pending :=
    List.filter_eq_self.mpr fun p hp => by
      simp [Nat.ne_of_lt (hfresh p hp)]
  unfold RpcWsClient.call
  rw [hw]
  simp only [Bool.not_true, Bool.false_eq_true, if_false, List.filter_append, hone, hkeep,
    List.append_nil]

/-- C9: persisting the active registry entries and reloading the written
document reconstructs the same seed list, provided every entry has a
non-empty name and host and non-zero ports (guaranteed by the subscribe
validation); a missing or corrupt file loads as the empty list. -/
theorem persist_round_trip (entries : List EntryState)
    (h : ∀ e ∈ entries, e.snapshot.name ≠ "" ∧ e.snapshot.host ≠ "" ∧
          e.snapshot.rpcPort ≠ 0 ∧ e.snapshot.wsRpcPort ≠ 0) :
    loadPersistedNodes (PersistFile.valid (getPersistedList entries)) =
      getPersistedList entries ∧
    loadPersistedNodes PersistFile.missing = [] ∧
    loadPersistedNodes PersistFile.corrupt = [] := by
  refine ⟨?_, rfl, rfl⟩
  have key : ∀ l : List PersistedNode,
      (∀ n ∈ l, n.name ≠ "" ∧ n.host ≠ "" ∧ n.rpcPort ≠ 0 ∧ n.wsRpcPort ≠ 0) →
      loadPersistedNodes (PersistFile.valid l) = l := by
    intro l hl
    induction l with
    | nil => rfl
    | cons x xs ih =>
      obtain ⟨hn, hh, hr, hw2⟩ := hl x (List.mem_cons_self x xs)
      have hs : sanitizePersisted x = x := by
        unfold sanitizePersisted
        rw [if_neg hr, if_neg hw2]
      have ihx := ih fun n hn2 => hl n (List.mem_cons_of_mem x hn2)
      unfold loadPersistedNodes at ihx ⊢
      simp only [List.map_cons, List.filter_cons, hs]
      rw [if_pos (by simp [hn, hh])]
      exact congrArg (x :: ·) ihx
  refine key _ fun n hn => ?_
  obtain ⟨e, he, rfl⟩ := List.mem_map.mp hn
  exact h e he

/-- C3 counterexample: a `disconnect` on a state with one 1-second-old
pending request rejects nothing (the cleanup pass only touches requests
older than 60 s) and leaves the request, together with its live timeout
timer, in the pending table — refuting, at N = 1, the claim that
`disconnect()` fails all N pending requests with `ConnectionClosed` and
releases their timers. -/
theorem disconnect_leaves_fresh_pending :
    (RpcWsClient.disconnect 2000 rpcOneFresh).2 = [] ∧
    (RpcWsClient.disconnect 2000 rpcOneFresh).1.pending =
      [{ id := 1, createdAt := 1000, timerActive := true }] := by
  exact ⟨by decide, by decide⟩

/-- C3 amended: `disconnect()` cancels the scheduled reconnection, closes
the connection, and synchronously fails (with the cleanup error) only
requests older than 60 s; every remaining pending request is failed with
`ConnectionClosed`, and its timer released, by the close event the
terminated socket then emits.  After the pair of steps the pending table is
empty, no reconnect is scheduled, and each emitted rejection is one of the
two failures — so none of the requests ever resolves successfully. -/
theorem disconnect_then_close_fails_all (now : ℤ) (jitter : ℚ) (st : RpcState) :
    (disconnectThenClose now jitter st).1.pending = [] ∧
    (disconnectThenClose now jitter st).1.reconnectTimer = none ∧
    (disconnectThenClose now jitter st).1.shouldReconnect = false ∧
    (disconnectThenClose now jitter st).1.connected = false ∧
    (∀ p ∈ st.pending,
      (p.id, RpcFailure.cleanupTooOld) ∈ (disconnectThenClose now jitter st).2 ∨
      (p.id, RpcFailure.connectionClosed) ∈ (disconnectThenClose now jitter st).2) ∧
    (∀ x ∈ (disconnectThenClose now jitter st).2,
      x.2 = RpcFailure.cleanupTooOld ∨ x.2 = RpcFailure.connectionClosed) := by
  refine ⟨rfl, rfl, rfl, rfl, ?_, ?_⟩
  · intro p hp
    unfold disconnectThenClose RpcWsClient.disconnect cleanupOldRequests closeHandlerRpc
    by_cases hc : now - p.createdAt > cleanupMaxAgeMs
    · refine Or.inl (List.mem_append_left _ ?_)
      exact List.mem_map.mpr ⟨p, List.mem_filter.mpr ⟨hp, by simpa using hc⟩, rfl⟩
    · refine Or.inr (List.mem_append_right _ ?_)
      exact List.mem_map.mpr ⟨p, List.mem_filter.mpr ⟨hp, by simpa using hc⟩, rfl⟩
  · intro x hx
    unfold disconnectThenClose RpcWsClient.disconnect cleanupOldRequests closeHandlerRpc at hx
    rcases List.mem_append.mp hx with hx1 | hx2
    · obtain ⟨p, _, rfl⟩ := List.mem_map.mp hx1
      exact Or.inl rfl
    · obtain ⟨p, _, rfl⟩ := List.mem_map.mp hx2
      exact Or.inr rfl

/-- Helper: the timestamp section only writes `blockPropagationMs`,
`blockTimeMs` and `blockTimeAvgMs`; the probe fields pass through. -/
theorem pollTsSection_preserves (now : ℤ) (ts : Int) (lastTs : Option Int)
    (win : List ℤ) (s : NodeSnapshot) :
    (pollTsSection now ts lastTs win s).1.latestBlock = s.latestBlock ∧
    (pollTsSection now ts lastTs win s).1.peerCount = s.peerCount ∧
    (pollTsSection now ts lastTs win s).1.gasPriceGwei = s.gasPriceGwei ∧
    (pollTsSection now ts lastTs win s).1.gasUsed = s.gasUsed ∧
    (pollTsSection now ts lastTs win s).1.gasLimit = s.gasLimit ∧
    (pollTsSection now ts lastTs win s).1.blockTxs = s.blockTxs := by
  unfold pollTsSection
  rcases lastTs with _ | prev <;> dsimp only <;> (repeat' split) <;>
    exact ⟨rfl, rfl, rfl, rfl, rfl, rfl⟩

/-- Helper: field behaviour of the block section. -/
theorem pollBlockSection_fields (now : ℤ) (b : BlockObj) (lastTs : Option Int)
    (win : List ℤ) (s : NodeSnapshot) :
    (pollBlockSection now b lastTs win s).1.latestBlock = s.latestBlock ∧
    (pollBlockSection now b lastTs win s).1.peerCount = s.peerCount ∧
    (pollBlockSection now b lastTs win s).1.gasPriceGwei = s.gasPriceGwei ∧
    (pollBlockSection now b lastTs win s).1.gasUsed =
      (match parseHexInt b.gasUsed with | some g => some g | none => s.gasUsed) ∧
    (pollBlockSection now b lastTs win s).1.gasLimit =
      (match parseHexInt b.gasLimit with | some g => some g | none => s.gasLimit) ∧
    (pollBlockSection now b lastTs win s).1.blockTxs = b.transactions := by
  unfold pollBlockSection
  rcases blockTsSec b with _ | ts
  · exact ⟨rfl, rfl, rfl, rfl, rfl, rfl⟩
  · obtain ⟨h1, h2, h3, h4, h5, h6⟩ := pollTsSection_preserves now ts lastTs win
      { s with
        blockTxs := b.transactions
        gasUsed := match parseHexInt b.gasUsed with | some g => some g | none => s.gasUsed
        gasLimit := match parseHexInt b.gasLimit with | some g => some g | none => s.gasLimit }
    exact ⟨h1, h2, h3, h4, h5, h6⟩

/-- C4 counterexample: a poll whose gas-price hex is unparseable and whose
block object has no transactions array does NOT leave the previous
`gasPriceGwei` and `blockTxs` untouched — both are overwritten with
`undefined` (here `none`), refuting the untouched-on-unparseable claim for
those fields. -/
theorem poll_overwrites_gas_price :
    pollPrevState.snapshot.gasPriceGwei = some 5 ∧
    pollPrevState.snapshot.blockTxs = some 7 ∧
    parseHexInt pollBadGasData.gasPriceHex = none ∧
    (pollUpdate 99 7 pollBadGasData pollPrevState).snapshot.gasPriceGwei = none ∧
    (pollUpdate 99 7 pollBadGasData pollPrevState).snapshot.blockTxs = none :=
  ⟨rfl, rfl, by decide, by decide, by decide⟩

/-- C4 amended: hexadecimal parse failures fail soft for `latestBlock`,
`peerCount`, `gasUsed` and `gasLimit` (previous value kept, never `NaN`),
but `gasPriceGwei` is overwritten with `undefined` when the gas price is
unparseable, and `blockTxs` is overwritten with `undefined` when the block
has no transactions array. -/
theorem poll_fail_soft (now lat : ℤ) (d : PollData) (st : EntryState) :
    (parseHexInt d.blockHex = none →
      (pollUpdate now lat d st).snapshot.latestBlock = st.snapshot.latestBlock) ∧
    (parseHexInt d.peerHex = none →
      (pollUpdate now lat d st).snapshot.peerCount = st.snapshot.peerCount) ∧
    (parseHexInt d.gasPriceHex = none →
      (pollUpdate now lat d st).snapshot.gasPriceGwei = none) ∧
    (∀ b, d.blockObj = some b → parseHexInt b.gasUsed = none →
      (pollUpdate now lat d st).snapshot.gasUsed = st.snapshot.gasUsed) ∧
    (∀ b, d.blockObj = some b → parseHexInt b.gasLimit = none →
      (pollUpdate now lat d st).snapshot.gasLimit = st.snapshot.gasLimit) ∧
    (∀ b lb, parseHexInt d.blockHex = some lb → d.blockObj = some b →
      b.transactions = none →
      (pollUpdate now lat d st).snapshot.blockTxs = none) := by
  refine ⟨?_, ?_, ?_, ?_, ?_, ?_⟩
  · intro hb
    unfold pollUpdate pollProbes
    rw [hb]
  · intro hp
    unfold pollUpdate pollProbes
    rw [hp]
    rcases hb : parseHexInt d.blockHex with _ | lb <;> rcases ho : d.blockObj with _ | bo <;>
      try rfl
    exact (pollBlockSection_fields now bo st.lastBlockTimestampSec st.timesWindow _).2.1
  · intro hg
    unfold pollUpdate pollProbes
    rw [hg]
    rcases hb : parseHexInt d.blockHex with _ | lb <;> rcases ho : d.blockObj with _ | bo <;>
      try rfl
    exact (pollBlockSection_fields now bo st.lastBlockTimestampSec st.timesWindow _).2.2.1
  · intro b hob hu
    unfold pollUpdate
    rcases hb : parseHexInt d.blockHex with _ | lb <;> rcases ho : d.blockObj with _ | bo <;>
      try rfl
    rw [hob] at ho
    cases ho
    rw [(pollBlockSection_fields now b st.lastBlockTimestampSec st.timesWindow _).2.2.2.1, hu]
    rfl
  · intro b hob hl
    unfold pollUpdate
    rcases hb : parseHexInt d.blockHex with _ | lb <;> rcases ho : d.blockObj with _ | bo <;>
      try rfl
    rw [hob] at ho
    cases ho
    rw [(pollBlockSection_fields now b st.lastBlockTimestampSec st.timesWindow _).2.2.2.2.1, hl]
    rfl
  · intro b lb hlb hob ht
    unfold pollUpdate
    rw [hlb, hob]
    dsimp only
    rw [(pollBlockSection_fields now b st.lastBlockTimestampSec st.timesWindow _).2.2.2.2.2]
    exact ht

/-- Helper: a pushed window is never empty. -/
theorem pushWindow_length_pos (w : List ℤ) (dt : ℤ) : 0 < (pushWindow w dt).length := by
  unfold pushWindow
  dsimp only
  split
  · next h =>
      simp only [List.length_append, List.length_singleton] at h
      simp only [List.length_drop, List.length_append, List.length_singleton]
      omega
  · simp

/-- Helper: the rolling window after any sequence of pushes, starting from a
window of at most 10 samples, is the suffix of the combined sample stream
that keeps the last `min 10 (total)` samples. -/
theorem pushWindow_foldl (ds : List ℤ) : ∀ w : List ℤ, w.length ≤ 10 →
    List.foldl pushWindow w ds = (w ++ ds).drop (w.length + ds.length - 10) := by
  induction ds with
  | nil =>
    intro w hw
    simp [Nat.sub_eq_zero_of_le hw]
  | cons d rest ih =>
    intro w hw
    rw [List.foldl_cons]
    by_cases h10 : w.length + 1 > 10
    · have hpw : pushWindow w d = (w ++ [d]).drop 1 := by
        unfold pushWindow
        rw [if_pos (by simpa using h10)]
      have hlen : ((w ++ [d]).drop 1).length = 10 := by
        simp only [List.length_drop, List.length_append, List.length_singleton]
        omega
      rw [hpw, ih _ (le_of_eq hlen), hlen]
      rw [← List.drop_append_of_le_length (show 1 ≤ (w ++ [d]).length by simp)]
      rw [List.drop_drop]
      have hassoc : w ++ [d] ++ rest = w ++ d :: rest := by simp
      rw [hassoc]
      have hwlen : w.length = 10 := by omega
      congr 1
      simp only [List.length_cons, hwlen]
      omega
    · have hpw : pushWindow w d = w ++ [d] := by
        unfold pushWindow
        rw [if_neg (by simpa using h10)]
      have hlen2 : (w ++ [d]).length ≤ 10 := by
        simp only [List.length_append, List.length_singleton]
        omega
      rw [hpw, ih _ hlen2]
      rw [List.append_assoc, List.singleton_append]
      congr 1
      simp only [List.length_append, List.length_singleton, List.length_cons,
        List.length_nil]
      omega

/-- Helper: window behaviour of the timestamp section — either nothing is
pushed and the window and `blockTimeMs` are unchanged, or the previous
timestamp exists, is truthy, and is strictly older, and the delta is pushed
with the mean recomputed. -/
theorem pollTsSection_window (now : ℤ) (ts : Int) (lastTs : Option Int)
    (win : List ℤ) (s : NodeSnapshot) :
    ((pollTsSection now ts lastTs win s).2.2 = win ∧
     (pollTsSection now ts lastTs win s).1.blockTimeMs = s.blockTimeMs) ∨
    (∃ prev, lastTs = some prev ∧ prev ≠ 0 ∧ prev < ts ∧
      (pollTsSection now ts lastTs win s).2.2 = pushWindow win ((ts - prev) * 1000) ∧
      (pollTsSection now ts lastTs win s).1.blockTimeMs = some ((ts - prev) * 1000) ∧
      (pollTsSection now ts lastTs win s).1.blockTimeAvgMs =
        some (windowMean (pushWindow win ((ts - prev) * 1000)))) := by
  unfold pollTsSection
  rcases lastTs with _ | prev
  · dsimp only
    simp only [Bool.false_eq_true, if_false]
    split <;> exact Or.inl ⟨by trivial, by trivial⟩
  · dsimp only
    rcases hpush : (!decide (prev = 0) && decide (prev < ts)) with _ | _
    · simp only [Bool.false_eq_true, if_false]
      split <;> exact Or.inl ⟨by trivial, by trivial⟩
    · obtain ⟨hp0, hlt⟩ : prev ≠ 0 ∧ prev < ts := by
        have h := hpush
        simp only [Bool.and_eq_true, Bool.not_eq_true', decide_eq_false_iff_not,
          decide_eq_true_eq] at h
        exact ⟨h.1, h.2⟩
      rw [if_pos rfl]
      rw [if_pos (pushWindow_length_pos win _)]
      exact Or.inr ⟨prev, rfl, hp0, hlt, rfl, rfl, rfl⟩

/-- Helper: window behaviour of the block section. -/
theorem pollBlockSection_window (now : ℤ) (b : BlockObj) (lastTs : Option Int)
    (win : List ℤ) (s : NodeSnapshot) :
    ((pollBlockSection now b lastTs win s).2.2 = win ∧
     (pollBlockSection now b lastTs win s).1.blockTimeMs = s.blockTimeMs) ∨
    (∃ prev ts, lastTs = some prev ∧ blockTsSec b = some ts ∧ prev ≠ 0 ∧ prev < ts ∧
      (pollBlockSection now b lastTs win s).2.2 = pushWindow win ((ts - prev) * 1000) ∧
      (pollBlockSection now b lastTs win s).1.blockTimeMs = some ((ts - prev) * 1000) ∧
      (pollBlockSection now b lastTs win s).1.blockTimeAvgMs =
        some (windowMean (pushWindow win ((ts - prev) * 1000)))) := by
  unfold pollBlockSection
  rcases hts : blockTsSec b with _ | ts
  · exact Or.inl ⟨rfl, rfl⟩
  · rcases pollTsSection_window now ts lastTs win
        { s with
          blockTxs := b.transactions
          gasUsed := match parseHexInt b.gasUsed with | some g => some g | none => s.gasUsed
          gasLimit := match parseHexInt b.gasLimit with | some g => some g | none => s.gasLimit }
        with ⟨hw, hm⟩ | ⟨prev, hprev, hp0, hlt, hw, hm, ha⟩
    · exact Or.inl ⟨hw, hm⟩
    · exact Or.inr ⟨prev, ts, hprev, rfl, hp0, hlt, hw, hm, ha⟩

/-- C5: an inter-block sample is pushed only when the fetched block
timestamp is strictly newer than the previously seen one, in which case the
window receives the delta and `blockTimeAvgMs` becomes the arithmetic mean
of the updated window; pushing keeps the last `min 10 n` of the first `n`
samples, and a push into a full window of 10 evicts the oldest sample. -/
theorem poll_window_mean (now lat : ℤ) (d : PollData) (st : EntryState) :
    (((pollUpdate now lat d st).timesWindow = st.timesWindow ∧
      (pollUpdate now lat d st).snapshot.blockTimeMs = st.snapshot.blockTimeMs) ∨
     (∃ prev ts b, st.lastBlockTimestampSec = some prev ∧ d.blockObj = some b ∧
       blockTsSec b = some ts ∧ prev ≠ 0 ∧ prev < ts ∧
       (pollUpdate now lat d st).timesWindow =
         pushWindow st.timesWindow ((ts - prev) * 1000) ∧
       (pollUpdate now lat d st).snapshot.blockTimeMs = some ((ts - prev) * 1000) ∧
       (pollUpdate now lat d st).snapshot.blockTimeAvgMs =
         some (windowMean (pushWindow st.timesWindow ((ts - prev) * 1000))))) ∧
    (∀ ds : List ℤ, List.foldl pushWindow [] ds = ds.drop (ds.length - 10)) ∧
    (∀ (w : List ℤ) (dt : ℤ), w.length = 10 → pushWindow w dt = w.drop 1 ++ [dt]) := by
  refine ⟨?_, ?_, ?_⟩
  · unfold pollUpdate
    rcases hb : parseHexInt d.blockHex with _ | lb <;> rcases ho : d.blockObj with _ | bo <;>
      try exact Or.inl ⟨rfl, rfl⟩
    rcases pollBlockSection_window now bo st.lastBlockTimestampSec st.timesWindow
        (pollProbes lat d st.snapshot)
        with ⟨hw, hm⟩ | ⟨prev, ts, hprev, hts, hp0, hlt, hw, hm, ha⟩
    · exact Or.inl ⟨hw, hm⟩
    · exact Or.inr ⟨prev, ts, bo, hprev, rfl, hts, hp0, hlt, hw, hm, ha⟩
  · intro ds
    simpa using pushWindow_foldl ds [] (by simp)
  · intro w dt hlen
    unfold pushWindow
    rw [if_pos (by simp [hlen])]
    rw [List.drop_append_of_le_length (by simp [hlen])]

/-- Helper: a close event with reconnection enabled schedules the current
delay and advances it by the capped doubling-plus-jitter rule. -/
theorem closeHandlerRpc_sched (jitter : ℚ) (st : RpcState)
    (h : st.shouldReconnect = true) :
    (closeHandlerRpc jitter st).1.reconnectTimer = some st.currentReconnectDelay ∧
    (closeHandlerRpc jitter st).1.currentReconnectDelay =
      min (st.currentReconnectDelay * 2 + jitter) 30000 ∧
    (closeHandlerRpc jitter st).1.shouldReconnect = true := by
  unfold closeHandlerRpc scheduleReconnect maxReconnectDelayQ
  dsimp only
  rw [h]
  simp only [Bool.not_true, Bool.false_eq_true, if_false]
  refine ⟨?_, ?_, ?_⟩ <;> trivial

/-- Helper: the scheduled-delay list equals the claimed recurrence. -/
theorem delaysFrom_eq_recSeq (js : List ℚ) : ∀ st : RpcState,
    st.shouldReconnect = true →
    delaysFrom st js = recSeq st.currentReconnectDelay js := by
  induction js with
  | nil => intro st _; rfl
  | cons j rest ih =>
    intro st h
    obtain ⟨ht, hd, hs⟩ := closeHandlerRpc_sched j st h
    unfold delaysFrom recSeq
    dsimp only
    rw [ht, ih _ hs, hd]
    rfl

/-- Helper: every element of the recurrence stays at or below the cap once
the seed does. -/
theorem recSeq_le_cap (js : List ℚ) : ∀ d0 : ℚ, d0 ≤ 30000 →
    ∀ dl ∈ recSeq d0 js, dl ≤ 30000 := by
  induction js with
  | nil => intro d0 _ dl hdl; cases hdl
  | cons j rest ih =>
    intro d0 h0 dl hdl
    rcases List.mem_cons.mp hdl with hh | hh
    · exact hh ▸ h0
    · exact ih _ (min_le_right _ _) dl hh

/-- C8: from any state with reconnection enabled, consecutive close events
with jitters `js` schedule exactly the delays of the recurrence that starts
at the current delay and continues with
`min (previous * 2 + jitter) 30000`; the first delay from a fresh or
freshly-opened client is the 2000 ms base (a successful open resets the
delay to the base), and no scheduled delay ever exceeds 30000 ms once the
starting delay is within the cap. -/
theorem reconnect_backoff (js : List ℚ) (st : RpcState)
    (hsr : st.shouldReconnect = true) :
    delaysFrom st js = recSeq st.currentReconnectDelay js ∧
    (openHandlerRpc st).currentReconnectDelay = 2000 ∧
    RpcWsClient.init.currentReconnectDelay = 2000 ∧
    (st.currentReconnectDelay ≤ 30000 →
      ∀ dl ∈ delaysFrom st js, dl ≤ 30000) := by
  refine ⟨delaysFrom_eq_recSeq js st hsr, rfl, rfl, fun hcap dl hdl => ?_⟩
  rw [delaysFrom_eq_recSeq js st hsr] at hdl
  exact recSeq_le_cap js st.currentReconnectDelay hcap dl hdl

/-- Helper: the three-way comparison returns `gt` exactly on reversed
strict order. -/
theorem ordc_gt_iff {α : Type} [LinearOrder α] (x y : α) :
    ordc x y = Ordering.gt ↔ y < x := by
  unfold ordc
  split_ifs with h1 h2
  · simp [lt_asymm h1]
  · simp [h2, lt_irrefl]
  · simp [lt_of_le_of_ne (not_lt.mp h1) (Ne.symm h2)]

/-- Helper: the three-way comparison returns `eq` exactly on equality. -/
theorem ordc_eq_iff {α : Type} [LinearOrder α] (x y : α) :
    ordc x y = Ordering.eq ↔ x = y := by
  unfold ordc
  split_ifs with h1 h2
  · simp [ne_of_lt h1]
  · simp [h2]
  · simp [h2]

/-- Helper: lexicographic composition test for `gt`. -/
theorem orderingThen_gt (o₁ o₂ : Ordering) :
    o₁.then o₂ = Ordering.gt ↔ o₁ = Ordering.gt ∨ (o₁ = Ordering.eq ∧ o₂ = Ordering.gt) := by
  cases o₁ <;> simp [Ordering.then]

/-- Helper: the comparator of `list()` returns `gt` exactly when the sort
key of the right snapshot is lexicographically smaller. -/
theorem cmpSnap_gt_iff (a b : NodeSnapshot) :
    cmpSnap a b = Ordering.gt ↔ snapKey b < snapKey a := by
  unfold cmpSnap snapKey
  rw [orderingThen_gt, orderingThen_gt, orderingThen_gt]
  rw [ordc_gt_iff, ordc_eq_iff, ordc_gt_iff, ordc_eq_iff, ordc_gt_iff, ordc_eq_iff, ordc_gt_iff]
  simp only [Prod.Lex.lt_iff, toLex_inj, Prod.mk.injEq]
  constructor
  · rintro (h | ⟨he, (h | ⟨he2, (h | ⟨he3, h⟩)⟩)⟩)
    · exact Or.inl h
    · exact Or.inr ⟨he.symm, Or.inl h⟩
    · exact Or.inr ⟨he.symm, Or.inr ⟨he2.symm, Or.inl h⟩⟩
    · exact Or.inr ⟨he.symm, Or.inr ⟨he2.symm, Or.inr ⟨he3.symm, h⟩⟩⟩
  · rintro (h | ⟨he, (h | ⟨he2, (h | ⟨he3, h⟩)⟩)⟩)
    · exact Or.inl h
    · exact Or.inr ⟨he.symm, Or.inl h⟩
    · exact Or.inr ⟨he.symm, Or.inr ⟨he2.symm, Or.inl h⟩⟩
    · exact Or.inr ⟨he.symm, Or.inr ⟨he2.symm, Or.inr ⟨he3.symm, h⟩⟩⟩

/-- Helper: the comparator order is exactly the key order. -/
theorem nodeLe_iff_key (a b : NodeSnapshot) :
    nodeLe a b ↔ snapKey a ≤ snapKey b := by
  unfold nodeLe
  rw [Ne, cmpSnap_gt_iff, not_lt]

instance : IsTotal NodeSnapshot nodeLe :=
  ⟨fun a b => by
    rw [nodeLe_iff_key, nodeLe_iff_key]
    exact le_total _ _⟩

instance : IsTrans NodeSnapshot nodeLe :=
  ⟨fun a b c hab hbc => by
    rw [nodeLe_iff_key] at hab hbc ⊢
    exact le_trans hab hbc⟩

/-- Helper: the negated-descending last-update key orders snapshots exactly
opposite to the plain last-update value (absent = oldest). -/
theorem luExtd_lt_iff (a b : NodeSnapshot) :
    luExtd a < luExtd b ↔ luExtB b < luExtB a := by
  unfold luExtd luExtB
  rcases a.lastUpdated with _ | u <;> rcases b.lastUpdated with _ | v
  · simp
  · simp
  · exact iff_of_true (by exact_mod_cast WithTop.coe_lt_top (-u)) (WithBot.bot_lt_coe u)
  · simp only [WithTop.coe_lt_coe, WithBot.coe_lt_coe, neg_lt_neg_iff]

/-- Helper: equality transfer for the two last-update encodings. -/
theorem luExtd_eq_iff (a b : NodeSnapshot) :
    luExtd a = luExtd b ↔ luExtB a = luExtB b := by
  unfold luExtd luExtB
  rcases a.lastUpdated with _ | u <;> rcases b.lastUpdated with _ | v
  · simp
  · exact iff_of_false WithTop.top_ne_coe WithBot.bot_ne_coe
  · exact iff_of_false WithTop.coe_ne_top WithBot.coe_ne_bot
  · simp only [WithTop.coe_eq_coe, WithBot.coe_eq_coe, neg_inj]

/-- Helper: the ranking described by the amended claim coincides with the
comparator order of `list()`. -/
theorem specLe_iff_nodeLe (a b : NodeSnapshot) :
    specLe a b ↔ nodeLe a b := by
  rw [nodeLe_iff_key]
  unfold specLe snapKey
  simp only [Prod.Lex.le_iff, toLex_inj, Prod.mk.injEq]
  rw [luExtd_lt_iff, luExtd_eq_iff]

/-- C6 counterexample: with two connected snapshots of latencies -5 and 3,
`list()` puts the positive latency first (the comparator maps a negative
measured latency to `Infinity`), so the output is not sorted by the order
the claim states, in which -5, being finite and measured, would come
first. -/
theorem registry_list_neg_latency :
    ¬ List.Sorted specLeOrig (registryList [snapNegLat, snapPosLat]) := by
  decide

/-- C6 amended: `list()` returns a permutation of the snapshots sorted by a
total deterministic order: connected before disconnected; within equal
connectedness ascending by latency with unmeasured, non-finite, or negative
latency treated as worst; ties most-recently-updated first; final ties by
name ascending. -/
theorem registry_list_ranked (l : List NodeSnapshot) :
    (registryList l).Perm l ∧
    List.Sorted specLe (registryList l) ∧
    (∀ a b : NodeSnapshot, specLe a b ∨ specLe b a) := by
  refine ⟨List.perm_insertionSort nodeLe l, ?_, ?_⟩
  · exact (List.sorted_insertionSort nodeLe l).imp
      (fun h => (specLe_iff_nodeLe _ _).mpr h)
  · intro a b
    rcases total_of nodeLe a b with h | h
    · exact Or.inl ((specLe_iff_nodeLe _ _).mpr h)
    · exact Or.inr ((specLe_iff_nodeLe _ _).mpr h)

/-- Helper: one step of the loop preserves the invariant. -/
theorem mostAdvStep_inv (seen : List NodeSnapshot)
    (acc : Option NodeSnapshot × WithBot ℤ × WithBot ℤ) (x : NodeSnapshot)
    (h : AdvInv seen acc) : AdvInv (seen ++ [x]) (mostAdvStep acc x) := by
  obtain ⟨bo, bb, bu⟩ := acc
  by_cases hcx : x.connected = true
  · rcases bo with _ | e
    · obtain ⟨hbb, hbu, hall⟩ := h
      subst hbb; subst hbu
      unfold mostAdvStep
      rw [if_pos hcx]
      dsimp only
      by_cases hrep : (⊥ : WithBot ℤ) < lbExt x ∨ (lbExt x = ⊥ ∧ (⊥ : WithBot ℤ) < luExt x)
      · rw [if_pos hrep]
        refine ⟨List.mem_append_right _ (List.mem_singleton_self x), hcx, rfl, rfl, ?_, ?_⟩
        · rintro ⟨hb0, hu0⟩
          rcases hrep with hlt | ⟨_, hlt⟩
          · rw [hb0] at hlt; exact absurd hlt (lt_irrefl _)
          · rw [hu0] at hlt; exact absurd hlt (lt_irrefl _)
        · intro t ht hct
          rcases List.mem_append.mp ht with ht | ht
          · obtain ⟨hsb, hsu⟩ := hall t ht hct
            by_cases hxb : lbExt x = ⊥
            · exact Or.inr ⟨hsb.trans hxb.symm, by rw [hsu]; exact bot_le⟩
            · exact Or.inl (by rw [hsb]; exact Ne.bot_lt hxb)
          · rw [List.mem_singleton.mp ht]
            exact Or.inr ⟨rfl, le_refl _⟩
      · rw [if_neg hrep]
        push_neg at hrep
        obtain ⟨h1, h2⟩ := hrep
        have hxb : lbExt x = ⊥ := le_bot_iff.mp h1
        have hxu : luExt x = ⊥ := le_bot_iff.mp (h2 hxb)
        refine ⟨rfl, rfl, ?_⟩
        intro t ht hct
        rcases List.mem_append.mp ht with ht | ht
        · exact hall t ht hct
        · rw [List.mem_singleton.mp ht]; exact ⟨hxb, hxu⟩
    · obtain ⟨he, hce, hbb, hbu, hne, hall⟩ := h
      subst hbb; subst hbu
      unfold mostAdvStep
      rw [if_pos hcx]
      dsimp only
      by_cases hrep : lbExt e < lbExt x ∨ (lbExt x = lbExt e ∧ luExt e < luExt x)
      · rw [if_pos hrep]
        refine ⟨List.mem_append_right _ (List.mem_singleton_self x), hcx, rfl, rfl, ?_, ?_⟩
        · rintro ⟨hb0, hu0⟩
          rcases hrep with hlt | ⟨_, hlt⟩
          · rw [hb0] at hlt; exact absurd hlt not_lt_bot
          · rw [hu0] at hlt; exact absurd hlt not_lt_bot
        · intro t ht hct
          rcases List.mem_append.mp ht with ht | ht
          · rcases hall t ht hct with hlt | ⟨heq, hle⟩
            · rcases hrep with h' | ⟨h', _⟩
              · exact Or.inl (hlt.trans h')
              · exact Or.inl (by rw [h']; exact hlt)
            · rcases hrep with h' | ⟨h', hlu⟩
              · exact Or.inl (heq ▸ h')
              · exact Or.inr ⟨heq.trans h'.symm, hle.trans (le_of_lt hlu)⟩
          · rw [List.mem_singleton.mp ht]
            exact Or.inr ⟨rfl, le_refl _⟩
      · rw [if_neg hrep]
        push_neg at hrep
        obtain ⟨h1, h2⟩ := hrep
        refine ⟨List.mem_append_left _ he, hce, rfl, rfl, hne, ?_⟩
        intro t ht hct
        rcases List.mem_append.mp ht with ht | ht
        · exact hall t ht hct
        · rw [List.mem_singleton.mp ht]
          rcases lt_or_eq_of_le h1 with hlt | heq
          · exact Or.inl hlt
          · exact Or.inr ⟨heq, h2 heq⟩
  · unfold mostAdvStep
    rw [if_neg hcx]
    rcases bo with _ | e
    · obtain ⟨hbb, hbu, hall⟩ := h
      refine ⟨hbb, hbu, ?_⟩
      intro t ht hct
      rcases List.mem_append.mp ht with ht | ht
      · exact hall t ht hct
      · rw [List.mem_singleton.mp ht] at hct; exact absurd hct hcx
    · obtain ⟨he, hce, hbb, hbu, hne, hall⟩ := h
      refine ⟨List.mem_append_left _ he, hce, hbb, hbu, hne, ?_⟩
      intro t ht hct
      rcases List.mem_append.mp ht with ht | ht
      · exact hall t ht hct
      · rw [List.mem_singleton.mp ht] at hct; exact absurd hct hcx

/-- Helper: the invariant holds after folding over any suffix. -/
theorem mostAdv_fold (l : List NodeSnapshot) : ∀ (seen : List NodeSnapshot)
    (acc : Option NodeSnapshot × WithBot ℤ × WithBot ℤ),
    AdvInv seen acc → AdvInv (seen ++ l) (l.foldl mostAdvStep acc) := by
  induction l with
  | nil => intro seen acc h; simpa using h
  | cons x xs ih =>
    intro seen acc h
    have hstep := mostAdvStep_inv seen acc x h
    have := ih (seen ++ [x]) _ hstep
    simpa [List.append_assoc] using this

/-- Helper: the extended block height is bottom exactly when the snapshot
has no block number. -/
theorem lbExt_eq_bot_iff (s : NodeSnapshot) : lbExt s = ⊥ ↔ s.latestBlock = none := by
  unfold lbExt
  rcases s.latestBlock with _ | k <;> simp

/-- Helper: the extended update time is bottom exactly when the snapshot
has no update time. -/
theorem luExt_eq_bot_iff (s : NodeSnapshot) : luExt s = ⊥ ↔ s.lastUpdated = none := by
  unfold luExt
  rcases s.lastUpdated with _ | u <;> simp

/-- C7 counterexample: with two connected monitors, neither of which has a
block number, `getMostAdvancedConnected` returns the one with the more
recent `lastUpdated` (the second), not the first connected monitor, so the
first-connected fallback clause of the claim is false. -/
theorem most_advanced_not_first_connected :
    (∀ s ∈ [snapNoBlockOld, snapNoBlockNew], s.latestBlock = none) ∧
    getFirstConnected [snapNoBlockOld, snapNoBlockNew] = some snapNoBlockOld ∧
    getMostAdvancedConnected [snapNoBlockOld, snapNoBlockNew] = some snapNoBlockNew ∧
    snapNoBlockNew ≠ snapNoBlockOld := by
  exact ⟨by decide, by decide, by decide, by decide⟩

/-- C7 amended: `getMostAdvancedConnected` returns `undefined` when no
monitor is connected; when some connected monitor has a block number it
returns a connected monitor holding the highest block, with `lastUpdated`
as tiebreak; when no connected monitor has a block number it returns the
connected monitor with the most recent defined `lastUpdated`, and only when
no connected monitor has a `lastUpdated` either does it fall back to the
first connected monitor. -/
theorem most_advanced_connected (l : List NodeSnapshot) :
    ((∀ s ∈ l, s.connected = false) → getMostAdvancedConnected l = none) ∧
    ((∃ s ∈ l, s.connected = true ∧ s.latestBlock ≠ none) →
      ∃ e, getMostAdvancedConnected l = some e ∧ e ∈ l ∧ e.connected = true ∧
        e.latestBlock ≠ none ∧
        (∀ f ∈ l, f.connected = true → lbExt f ≤ lbExt e) ∧
        (∀ f ∈ l, f.connected = true → lbExt f = lbExt e → luExt f ≤ luExt e)) ∧
    ((∀ s ∈ l, s.connected = true → s.latestBlock = none) →
      ((∃ s ∈ l, s.connected = true ∧ s.lastUpdated ≠ none) →
        ∃ e, getMostAdvancedConnected l = some e ∧ e ∈ l ∧ e.connected = true ∧
          (∀ f ∈ l, f.connected = true → luExt f ≤ luExt e)) ∧
      ((∀ s ∈ l, s.connected = true → s.lastUpdated = none) →
        getMostAdvancedConnected l = getFirstConnected l)) := by
  have hinv : AdvInv l (l.foldl mostAdvStep (none, ⊥, ⊥)) := by
    have h0 : AdvInv ([] : List NodeSnapshot) (none, ⊥, ⊥) :=
      ⟨rfl, rfl, fun s hs => absurd hs (List.not_mem_nil s)⟩
    have := mostAdv_fold l [] (none, ⊥, ⊥) h0
    simpa using this
  unfold getMostAdvancedConnected
  rcases hF : l.foldl mostAdvStep (none, ⊥, ⊥) with ⟨bo, bb, bu⟩
  rw [hF] at hinv
  rcases bo with _ | e
  · obtain ⟨hbb, hbu, hall⟩ := hinv
    dsimp only
    refine ⟨?_, ?_, ?_⟩
    · intro _
      unfold getFirstConnected
      rw [List.find?_eq_none]
      intro s hs
      simp [
        show s.connected = false from (by
          rename_i hdisc
          exact hdisc s hs)]
    · rintro ⟨s, hs, hcs, hblk⟩
      exact absurd ((lbExt_eq_bot_iff s).mp (hall s hs hcs).1) hblk
    · intro _
      refine ⟨?_, fun _ => rfl⟩
      rintro ⟨s, hs, hcs, hlu⟩
      exact absurd ((luExt_eq_bot_iff s).mp (hall s hs hcs).2) hlu
  · obtain ⟨he, hce, hbb, hbu, hne, hall⟩ := hinv
    dsimp only
    refine ⟨?_, ?_, ?_⟩
    · intro hdisc
      rw [hdisc e he] at hce
      cases hce
    · rintro ⟨s, hs, hcs, hblk⟩
      have hsb : lbExt s ≠ ⊥ := fun hc => hblk ((lbExt_eq_bot_iff s).mp hc)
      have hle : lbExt s ≤ lbExt e := by
        rcases hall s hs hcs with hlt | ⟨heq, _⟩
        · exact le_of_lt hlt
        · exact le_of_eq heq
      have heb : lbExt e ≠ ⊥ := fun hc => hsb (le_bot_iff.mp (hc ▸ hle))
      refine ⟨e, rfl, he, hce, fun hc => heb ((lbExt_eq_bot_iff e).mpr hc), ?_, ?_⟩
      · intro f hf hcf
        rcases hall f hf hcf with hlt | ⟨heq, _⟩
        · exact le_of_lt hlt
        · exact le_of_eq heq
      · intro f hf hcf heq
        rcases hall f hf hcf with hlt | ⟨_, hle2⟩
        · exact absurd heq (ne_of_lt hlt)
        · exact hle2
    · intro hnoblk
      have heb : lbExt e = ⊥ := (lbExt_eq_bot_iff e).mpr (hnoblk e he hce)
      refine ⟨?_, ?_⟩
      · rintro ⟨s, hs, hcs, _⟩
        refine ⟨e, rfl, he, hce, ?_⟩
        intro f hf hcf
        rcases hall f hf hcf with hlt | ⟨_, hle2⟩
        · rw [heb] at hlt
          exact absurd hlt not_lt_bot
        · exact hle2
      · intro hnolu
        have heu : luExt e = ⊥ := (luExt_eq_bot_iff e).mpr (hnolu e he hce)
        exact absurd ⟨heb, heu⟩ hne

/-- Witness for the disconnect-then-close behaviour at a concrete state
with one over-aged and one fresh pending request. -/
theorem disconnect_then_close_fails_all_witness :
    (disconnectThenClose 200000 500 rpcMixedAge).1.pending = [] ∧
    ((1, RpcFailure.cleanupTooOld) ∈ (disconnectThenClose 200000 500 rpcMixedAge).2 ∨
     (1, RpcFailure.connectionClosed) ∈ (disconnectThenClose 200000 500 rpcMixedAge).2) :=
  ⟨(disconnect_then_close_fails_all 200000 500 rpcMixedAge).1,
   (disconnect_then_close_fails_all 200000 500 rpcMixedAge).2.2.2.2.1
     { id := 1, createdAt := 0, timerActive := true } (by decide)⟩

/-- Witness for the fail-soft poll behaviour at concrete unparseable
inputs. -/
theorem poll_fail_soft_witness :
    (pollUpdate 99 7 pollAllBadData pollPrevState).snapshot.latestBlock =
      pollPrevState.snapshot.latestBlock ∧
    (pollUpdate 99 7 pollAllBadData pollPrevState).snapshot.peerCount =
      pollPrevState.snapshot.peerCount ∧
    (pollUpdate 99 7 pollAllBadData pollPrevState).snapshot.gasPriceGwei = none ∧
    (pollUpdate 99 7 pollAllBadData pollPrevState).snapshot.gasUsed =
      pollPrevState.snapshot.gasUsed ∧
    (pollUpdate 99 7 pollAllBadData pollPrevState).snapshot.gasLimit =
      pollPrevState.snapshot.gasLimit ∧
    (pollUpdate 99 7 pollBadGasData pollPrevState).snapshot.blockTxs = none := by
  obtain ⟨h1, h2, h3, h4, h5, _⟩ := poll_fail_soft 99 7 pollAllBadData pollPrevState
  refine ⟨h1 (by decide), h2 (by decide), h3 (by decide),
    h4 _ rfl (by decide), h5 _ rfl (by decide), ?_⟩
  exact (poll_fail_soft 99 7 pollBadGasData pollPrevState).2.2.2.2.2 _ 16 (by decide) rfl rfl

/-- Witness for the rolling-window characterisation at concrete sample
streams. -/
theorem poll_window_mean_witness :
    List.foldl pushWindow [] [1, 2, 3, 4, 5, 6, 7, 8, 9, 10, 11, 12] =
      ([1, 2, 3, 4, 5, 6, 7, 8, 9, 10, 11, 12] : List ℤ).drop
        (([1, 2, 3, 4, 5, 6, 7, 8, 9, 10, 11, 12] : List ℤ).length - 10) ∧
    pushWindow [1, 2, 3, 4, 5, 6, 7, 8, 9, 10] 11 =
      ([1, 2, 3, 4, 5, 6, 7, 8, 9, 10] : List ℤ).drop 1 ++ [11] :=
  ⟨(poll_window_mean 0 0 pollBadGasData pollPrevState).2.1
      [1, 2, 3, 4, 5, 6, 7, 8, 9, 10, 11, 12],
   (poll_window_mean 0 0 pollBadGasData pollPrevState).2.2
      [1, 2, 3, 4, 5, 6, 7, 8, 9, 10] 11 (by decide)⟩

/-- Witness for the most-advanced lookup at a concrete registry with two
blockless connected monitors. -/
theorem most_advanced_connected_witness :
    ∃ e, getMostAdvancedConnected [snapNoBlockOld, snapNoBlockNew] = some e ∧
      e ∈ [snapNoBlockOld, snapNoBlockNew] ∧ e.connected = true ∧
      (∀ f ∈ [snapNoBlockOld, snapNoBlockNew], f.connected = true → luExt f ≤ luExt e) :=
  ((most_advanced_connected [snapNoBlockOld, snapNoBlockNew]).2.2 (by decide)).1
    ⟨snapNoBlockOld, by decide, by decide, by decide⟩

/-- Witness for the backoff recurrence from a freshly opened client with
two concrete jitters. -/
theorem reconnect_backoff_witness :
    delaysFrom (openHandlerRpc RpcWsClient.init) [500, 300] =
      recSeq (openHandlerRpc RpcWsClient.init).currentReconnectDelay [500, 300] ∧
    (openHandlerRpc RpcWsClient.init).currentReconnectDelay = 2000 ∧
    ∀ dl ∈ delaysFrom (openHandlerRpc RpcWsClient.init) [500, 300], dl ≤ 30000 :=
  ⟨(reconnect_backoff [500, 300] (openHandlerRpc RpcWsClient.init) rfl).1,
   (reconnect_backoff [500, 300] (openHandlerRpc RpcWsClient.init) rfl).2.1,
   (reconnect_backoff [500, 300] (openHandlerRpc RpcWsClient.init) rfl).2.2.2
     (by norm_num [openHandlerRpc, RpcWsClient.init, reconnectDelayBase])⟩

/-- Witness for the persistence round trip at a concrete registry. -/
theorem persist_round_trip_witness :
    loadPersistedNodes (PersistFile.valid (getPersistedList persistWitnessEntries)) =
      getPersistedList persistWitnessEntries ∧
    loadPersistedNodes PersistFile.missing = [] ∧
    loadPersistedNodes PersistFile.corrupt = [] :=
  persist_round_trip persistWitnessEntries (by decide)

/-- Witness for the send-throw rollback of `call` at a concrete state. -/
theorem call_send_throws_witness :
    RpcWsClient.call 5 false rpcMixedAge =
      ({ rpcMixedAge with idCounter := rpcMixedAge.idCounter + 1 }, CallResult.sendFailed) :=
  call_send_throws 5 rpcMixedAge rfl (by decide)
